import Mathlib

/-!
Verification development for the MNQ hybrid trader core
(`src/engines/risk_manager.py`, `src/engines/backtester.py`,
`src/utils/helpers.py`, `src/utils/config.py`).

Python floats are modelled as exact rationals (`ℚ`).  Python `round(x, 2)`
is modelled by `roundTo2` (Python rounds ties to even; every concrete value
this development rounds is not a tie, where the two conventions agree).
Python `int(x)` truncates toward zero and is modelled by `ratTrunc`.
Python dictionaries keyed by trade id are modelled as association lists
preserving insertion order (`setKey` / `delKey` / `List.lookup`).
-/

/-- Model of Python `round(x, 2)`. -/
def roundTo2 (x : ℚ) : ℚ := (round (x * 100) : ℤ) / 100

/-- Model of Python `int(x)`: truncation toward zero. -/
def ratTrunc (x : ℚ) : ℤ := if x < 0 then -⌊-x⌋ else ⌊x⌋

/-- Mean of a list of rationals (pandas `Series.mean` on a non-empty series). -/
def meanQ (l : List ℚ) : ℚ := l.sum / l.length

/-- `utils/config.py`: `MNQ_POINT_VALUE = 2.00`. -/
def MNQ_POINT_VALUE : ℚ := 2

/-- `utils/config.py` `StrategyConfig` — the fields consumed by the risk
manager and the backtest loop (the instrument/UI/broker fields are not read
by any code under verification). -/
structure StrategyConfig where
  account_size : ℚ
  risk_per_trade_pct : ℚ
  max_daily_loss_pct : ℚ
  trend_ema_period : ℕ
  trailing_stop_pct : ℚ
  max_trades_per_session : ℕ
  slippage_pct : ℚ
  commission_per_contract : ℚ
  strategy_mode : String
  deriving Repr, DecidableEq

/-- One entry of `RiskManager.open_positions` (the dict built by
`process_entry`; `entry_time` is a wall-clock timestamp read by nothing and
is omitted). -/
structure Position where
  direction : String
  entry_price : ℚ
  stop_loss : ℚ
  take_profit : ℚ
  quantity : ℤ
  highest_price : ℚ
  lowest_price : ℚ
  deriving Repr, DecidableEq

/-- The result dict of `RiskManager.process_exit`, also the shape of the
entries appended to `RiskManager.trade_log`. -/
structure TradeRecord where
  trade_id : ℕ
  direction : String
  entry_price : ℚ
  exit_price : ℚ
  adj_exit_price : ℚ
  pnl_points : ℚ
  gross_pnl : ℚ
  commission : ℚ
  slippage_cost : ℚ
  net_pnl : ℚ
  quantity : ℤ
  exit_reason : String
  deriving Repr, DecidableEq

/-- Python dict assignment `m[k] = v`: replace in place if the key exists,
otherwise append (insertion order is preserved). -/
def setKey (m : List (ℕ × Position)) (k : ℕ) (v : Position) : List (ℕ × Position) :=
  if (m.lookup k).isSome then
    m.map (fun p => if p.1 = k then (k, v) else p)
  else
    m ++ [(k, v)]

/-- Python `del m[k]`. -/
def delKey (m : List (ℕ × Position)) (k : ℕ) : List (ℕ × Position) :=
  m.filter (fun p => p.1 ≠ k)

/-- `engines/risk_manager.py` `RiskManager` mutable state. -/
structure RiskManager where
  config : StrategyConfig
  daily_pnl : ℚ
  trades_today : ℕ
  is_shutdown : Bool
  shutdown_reason : String
  open_positions : List (ℕ × Position)
  trade_log : List TradeRecord
  deriving Repr, DecidableEq

/-- `RiskManager.__init__`. -/
def initRM (config : StrategyConfig) : RiskManager :=
  { config := config
    daily_pnl := 0
    trades_today := 0
    is_shutdown := false
    shutdown_reason := ""
    open_positions := []
    trade_log := [] }

/-- `RiskManager.reset_daily`. -/
def RiskManager.reset_daily (s : RiskManager) : RiskManager :=
  { s with daily_pnl := 0, trades_today := 0, is_shutdown := false, shutdown_reason := "" }

/-- `RiskManager.can_trade`.  Mutating: latches the shutdown flag when the
daily-loss limit is breached.  Returns the updated state together with the
`(allowed, reason)` pair.  The dollar amount interpolated into the Python
messages is presentation formatting and is elided from the strings. -/
def RiskManager.can_trade (s : RiskManager) : RiskManager × Bool × String :=
  if s.is_shutdown then
    (s, false, "Trading halted: " ++ s.shutdown_reason)
  else
    let max_loss := s.config.account_size * s.config.max_daily_loss_pct
    if s.daily_pnl ≤ -max_loss then
      let s' := { s with is_shutdown := true, shutdown_reason := "Max daily loss reached" }
      (s', false, s'.shutdown_reason)
    else if s.trades_today ≥ s.config.max_trades_per_session then
      (s, false, "Max trades per session reached")
    else if s.open_positions.length > 0 then
      (s, false, "Position already open — wait for exit")
    else
      (s, true, "OK")

/-- `RiskManager.calculate_position_size`. -/
def RiskManager.calculate_position_size (s : RiskManager) (stop_distance_points : ℚ) : ℤ :=
  if stop_distance_points ≤ 0 then 0
  else
    let risk_amount := s.config.account_size * s.config.risk_per_trade_pct
    let cost_per_contract := stop_distance_points * MNQ_POINT_VALUE
    let contracts := ratTrunc (risk_amount / cost_per_contract)
    let contracts :=
      if contracts = 0 ∧ risk_amount / cost_per_contract ≥ 1/2 then 1 else contracts
    let max_by_margin :=
      ratTrunc (s.config.account_size / max (s.config.account_size * (1/100)) 1)
    let contracts := min contracts (max 1 max_by_margin)
    max 0 contracts

/-- `RiskManager.calculate_risk_amount`. -/
def RiskManager.calculate_risk_amount (s : RiskManager)
    (stop_distance_points : ℚ) (quantity : ℤ) : ℚ :=
  stop_distance_points * MNQ_POINT_VALUE * quantity

/-- `RiskManager.process_entry`: unconditionally registers the position in
`open_positions` and increments `trades_today` (there is no already-open
guard in the source). -/
def RiskManager.process_entry (s : RiskManager) (trade_id : ℕ) (direction : String)
    (entry_price stop_loss take_profit : ℚ) (quantity : ℤ) : RiskManager :=
  { s with
    open_positions := setKey s.open_positions trade_id
      { direction := direction
        entry_price := entry_price
        stop_loss := stop_loss
        take_profit := take_profit
        quantity := quantity
        highest_price := entry_price
        lowest_price := entry_price }
    trades_today := s.trades_today + 1 }

/-- The zeroed dict returned by `process_exit` on an unknown trade id. -/
def zeroExitRecord : TradeRecord :=
  { trade_id := 0, direction := "", entry_price := 0, exit_price := 0
    adj_exit_price := 0, pnl_points := 0, gross_pnl := 0, commission := 0
    slippage_cost := 0, net_pnl := 0, quantity := 0, exit_reason := "" }

/-- `RiskManager.process_exit`.  Returns the updated state and the result
dict.  Note: `daily_pnl` accumulates the exact `net_pnl` while the dict (and
hence the `trade_log` entry) stores `round(net_pnl, 2)`. -/
def RiskManager.process_exit (s : RiskManager) (trade_id : ℕ) (exit_price : ℚ)
    (reason : String) : RiskManager × TradeRecord :=
  match s.open_positions.lookup trade_id with
  | none => (s, zeroExitRecord)
  | some pos =>
    let direction := pos.direction
    let entry := pos.entry_price
    let qty := pos.quantity
    let slippage_amount := exit_price * s.config.slippage_pct
    let adj_exit := if direction = "LONG" then exit_price - slippage_amount
                    else exit_price + slippage_amount
    let pnl_points := if direction = "LONG" then adj_exit - entry else entry - adj_exit
    let gross_pnl := pnl_points * MNQ_POINT_VALUE * qty
    let commission := s.config.commission_per_contract * qty * 2
    let slippage_cost := slippage_amount * MNQ_POINT_VALUE * qty
    let net_pnl := gross_pnl - commission
    let daily' := s.daily_pnl + net_pnl
    let max_loss := s.config.account_size * s.config.max_daily_loss_pct
    let shut := daily' ≤ -max_loss
    let result : TradeRecord :=
      { trade_id := trade_id
        direction := direction
        entry_price := entry
        exit_price := exit_price
        adj_exit_price := adj_exit
        pnl_points := roundTo2 pnl_points
        gross_pnl := roundTo2 gross_pnl
        commission := roundTo2 commission
        slippage_cost := roundTo2 slippage_cost
        net_pnl := roundTo2 net_pnl
        quantity := qty
        exit_reason := reason }
    let s' :=
      { s with
        daily_pnl := daily'
        is_shutdown := if shut then true else s.is_shutdown
        shutdown_reason := if shut then "Max daily loss reached after trade" else s.shutdown_reason
        trade_log := s.trade_log ++ [result]
        open_positions := delKey s.open_positions trade_id }
    (s', result)

/-- `RiskManager.update_trailing_stop`.  The high/low water mark is updated
even when the stop itself is left unchanged, exactly as in the source. -/
def RiskManager.update_trailing_stop (s : RiskManager) (trade_id : ℕ)
    (current_price : ℚ) : RiskManager × Option ℚ :=
  match s.open_positions.lookup trade_id with
  | none => (s, none)
  | some pos =>
    let entry := pos.entry_price
    let current_stop := pos.stop_loss
    if pos.direction = "LONG" then
      let pos1 := if current_price > pos.highest_price
                  then { pos with highest_price := current_price } else pos
      let s1 := { s with open_positions := setKey s.open_positions trade_id pos1 }
      let profit := current_price - entry
      if profit ≤ 0 then (s1, none)
      else
        let trail_amount := profit * s.config.trailing_stop_pct
        let new_stop := pos1.highest_price - trail_amount
        if new_stop > current_stop then
          let pos2 := { pos1 with stop_loss := roundTo2 new_stop }
          ({ s with open_positions := setKey s.open_positions trade_id pos2 },
           some pos2.stop_loss)
        else (s1, none)
    else
      let pos1 := if current_price < pos.lowest_price
                  then { pos with lowest_price := current_price } else pos
      let s1 := { s with open_positions := setKey s.open_positions trade_id pos1 }
      let profit := entry - current_price
      if profit ≤ 0 then (s1, none)
      else
        let trail_amount := profit * s.config.trailing_stop_pct
        let new_stop := pos1.lowest_price + trail_amount
        if new_stop < current_stop then
          let pos2 := { pos1 with stop_loss := roundTo2 new_stop }
          ({ s with open_positions := setKey s.open_positions trade_id pos2 },
           some pos2.stop_loss)
        else (s1, none)

/-- `RiskManager.check_exit_conditions`.  Stop loss is checked before take
profit in each direction; when neither triggers the trailing stop is
advanced on the closing price. -/
def RiskManager.check_exit_conditions (s : RiskManager) (trade_id : ℕ)
    (current_high current_low current_close : ℚ) : RiskManager × Option (ℚ × String) :=
  match s.open_positions.lookup trade_id with
  | none => (s, none)
  | some pos =>
    let stop := pos.stop_loss
    let target := pos.take_profit
    if pos.direction = "LONG" then
      if current_low ≤ stop then (s, some (stop, "Stop Loss"))
      else if current_high ≥ target then (s, some (target, "Take Profit"))
      else ((s.update_trailing_stop trade_id current_close).1, none)
    else
      if current_high ≥ stop then (s, some (stop, "Stop Loss"))
      else if current_low ≤ target then (s, some (target, "Take Profit"))
      else ((s.update_trailing_stop trade_id current_close).1, none)

/-- `utils/helpers.py` `calculate_avg_rr` on the `pnl` column of the trades
frame.  When there are no losers the source falls back to the mean winning
P&L (not 0). -/
def calculate_avg_rr (pnls : List ℚ) : ℚ :=
  if pnls.length = 0 then 0
  else
    let winners := pnls.filter (fun p => 0 < p)
    let losers := pnls.filter (fun p => p < 0)
    if losers.length = 0 ∨ meanQ losers = 0 then
      if winners.length > 0 then meanQ winners else 0
    else
      let avg_win := if winners.length > 0 then meanQ winners else 0
      let avg_loss := |meanQ losers|
      if 0 < avg_loss then avg_win / avg_loss else 0

/-- Modelled from the spec: `strategies/strategy_engine.py` is not under
`src/` (only `strategies/__init__.py` and the backtester import it).  Spec
§4.2 gives the signal enumeration used by the generators; the risk manager
receives its `.value` string. -/
inductive Signal
  | LONG
  | SHORT
  | FLAT
  deriving Repr, DecidableEq

/-- `Signal.value` — the string handed to `RiskManager.process_entry`. -/
def Signal.value : Signal → String
  | .LONG => "LONG"
  | .SHORT => "SHORT"
  | .FLAT => "FLAT"

/-- Modelled from the spec: the `TradeSignal` produced by the missing
`strategy_engine.py`, with the fields the backtest loop reads (§4.2: a
proposal carries direction, entry, stop, target, confidence, strategy tag
and rationale). -/
structure TradeSignal where
  signal : Signal
  entry_price : ℚ
  stop_loss : ℚ
  take_profit : ℚ
  confidence : ℚ
  strategy : String
  reason : String
  deriving Repr, DecidableEq

/-- One OHLCV row as read by the backtest loop.  Only `high`, `low` and
`close` are consumed by the loop (`open`/`volume` feed the missing
indicator code, which is abstracted away — see `run_backtest`). -/
structure Bar where
  high : ℚ
  low : ℚ
  close : ℚ
  deriving Repr, DecidableEq, Inhabited

/-- pandas `.max()` over a non-empty column. -/
def listMaxQ : List ℚ → Option ℚ
  | [] => none
  | x :: xs => some (xs.foldl max x)

/-- pandas `.min()` over a non-empty column. -/
def listMinQ : List ℚ → Option ℚ
  | [] => none
  | x :: xs => some (xs.foldl min x)

/-- The `current_trade` dict built at entry time in `run_backtest`. -/
structure CurrentTrade where
  id : ℕ
  direction : String
  entry_price : ℚ
  stop_loss : ℚ
  take_profit : ℚ
  quantity : ℤ
  strategy : String
  reason : String
  confidence : ℚ
  entry_bar : ℕ
  deriving Repr, DecidableEq

/-- A completed trade record appended to `result.trades`
(`{**current_trade, exit fields}`). -/
structure TradeOut where
  base : CurrentTrade
  exit_price : ℚ
  exit_reason : String
  pnl : ℚ
  gross_pnl : ℚ
  commission : ℚ
  exit_bar : ℕ
  bars_held : ℕ
  deriving Repr, DecidableEq

/-- The local mutable state of the `run_backtest` loop. -/
structure BTState where
  rm : RiskManager
  account : ℚ
  equity : List ℚ
  trades : List TradeOut
  current_trade : Option CurrentTrade
  trade_id_counter : ℕ
  orb_high : Option ℚ
  orb_low : Option ℚ
  signals_generated : ℕ
  signals_filtered : ℕ
  deriving Repr, DecidableEq

/-- Loop head of `run_backtest`: on every 78th bar recompute the opening
range from the next three bars and reset the daily risk counters. -/
def sessionPhase (df : List Bar) (i : ℕ) (s : BTState) : BTState :=
  if i % 78 = 0 then
    let orb_slice := (df.drop i).take 3
    let s1 :=
      if orb_slice.length ≥ 2 then
        { s with orb_high := listMaxQ (orb_slice.map Bar.high)
                 orb_low := listMinQ (orb_slice.map Bar.low) }
      else s
    { s1 with rm := s1.rm.reset_daily }
  else s

/-- Exit block of the `run_backtest` loop body. -/
def exitPhase (df : List Bar) (i : ℕ) (s : BTState) : BTState :=
  match s.current_trade with
  | none => s
  | some ct =>
    let row := df.getD i default
    let cres := s.rm.check_exit_conditions ct.id row.high row.low row.close
    match cres.2 with
    | none => { s with rm := cres.1 }
    | some pr =>
      let pres := cres.1.process_exit ct.id pr.1 pr.2
      let info := pres.2
      let account' := s.account + info.net_pnl
      { s with
        rm := pres.1
        account := account'
        trades := s.trades ++ [{
          base := ct
          exit_price := pr.1
          exit_reason := pr.2
          pnl := info.net_pnl
          gross_pnl := info.gross_pnl
          commission := info.commission
          exit_bar := i
          bars_held := i - ct.entry_bar }]
        current_trade := none }

/-- Entry block of the `run_backtest` loop body.  `sig1`/`sig2` stand for
`generate_signal_hybrid1` / `generate_signal_hybrid2` (missing source,
modelled from spec §4.2 as arbitrary per-index proposal functions; the
enriched frame and the configuration are fixed over a run, hybrid2
additionally reads the current opening-range bounds). -/
def entryPhase (cfg : StrategyConfig) (sig1 : ℕ → Option TradeSignal)
    (sig2 : Option ℚ → Option ℚ → ℕ → Option TradeSignal)
    (test_start : ℕ) (i : ℕ) (s : BTState) : BTState :=
  match s.current_trade with
  | some _ => s
  | none =>
    let ctr := s.rm.can_trade
    let s := { s with rm := ctr.1 }
    if ctr.2.1 ∧ i > test_start + 3 then
      let signal : Option TradeSignal :=
        if cfg.strategy_mode = "hybrid1" then sig1 i
        else if cfg.strategy_mode = "hybrid2" then sig2 s.orb_high s.orb_low i
        else
          match sig1 i, sig2 s.orb_high s.orb_low i with
          | some a, some b => if a.confidence ≥ b.confidence then some a else some b
          | some a, none => some a
          | none, r => r
      match signal with
      | none => s
      | some sg =>
        if sg.signal = Signal.FLAT then s
        else
          let s := { s with signals_generated := s.signals_generated + 1 }
          let stop_dist := |sg.entry_price - sg.stop_loss|
          let qty : ℤ := s.rm.calculate_position_size stop_dist
          if qty > 0 ∧ sg.confidence ≥ 1/2 then
            let slippage := sg.entry_price * cfg.slippage_pct
            let adj_entry := if sg.signal = Signal.LONG then sg.entry_price + slippage
                             else sg.entry_price - slippage
            let new_counter := s.trade_id_counter + 1
            { s with
              rm := s.rm.process_entry new_counter sg.signal.value adj_entry
                      sg.stop_loss sg.take_profit qty
              trade_id_counter := new_counter
              current_trade := some
                { id := new_counter
                  direction := sg.signal.value
                  entry_price := roundTo2 adj_entry
                  stop_loss := sg.stop_loss
                  take_profit := sg.take_profit
                  quantity := qty
                  strategy := sg.strategy
                  reason := sg.reason
                  confidence := sg.confidence
                  entry_bar := i } }
          else
            { s with signals_filtered := s.signals_filtered + 1 }
    else s

/-- Tail of the loop body: one account-value sample per evaluated bar. -/
def equityPhase (s : BTState) : BTState :=
  { s with equity := s.equity ++ [s.account] }

/-- One full iteration of the `run_backtest` loop at bar index `i`. -/
def stepBar (df : List Bar) (cfg : StrategyConfig) (sig1 : ℕ → Option TradeSignal)
    (sig2 : Option ℚ → Option ℚ → ℕ → Option TradeSignal)
    (test_start : ℕ) (s : BTState) (i : ℕ) : BTState :=
  equityPhase (entryPhase cfg sig1 sig2 test_start i (exitPhase df i (sessionPhase df i s)))

/-- Evaluation start index of `run_backtest` (`int()` of a non-negative
product clamps to `ℕ` via `toNat`). -/
def test_startOf (df : List Bar) (cfg : StrategyConfig) (walk_forward : Bool)
    (in_sample_pct : ℚ) : ℕ :=
  if walk_forward then (ratTrunc ((df.length : ℚ) * in_sample_pct)).toNat
  else cfg.trend_ema_period + 5

/-- Initial loop state of `run_backtest`. -/
def btInit (cfg : StrategyConfig) : BTState :=
  { rm := initRM cfg
    account := cfg.account_size
    equity := [cfg.account_size]
    trades := []
    current_trade := none
    trade_id_counter := 0
    orb_high := none
    orb_low := none
    signals_generated := 0
    signals_filtered := 0 }

/-- The bar indices iterated by the `run_backtest` loop
(`range(test_start, len(df_full))`). -/
def btIndices (df : List Bar) (cfg : StrategyConfig) (walk_forward : Bool)
    (in_sample_pct : ℚ) : List ℕ :=
  List.range' (test_startOf df cfg walk_forward in_sample_pct)
    (df.length - test_startOf df cfg walk_forward in_sample_pct)

/-- Loop state after the first `n` iterations of the `run_backtest` loop. -/
def btRun (df : List Bar) (cfg : StrategyConfig) (sig1 : ℕ → Option TradeSignal)
    (sig2 : Option ℚ → Option ℚ → ℕ → Option TradeSignal)
    (walk_forward : Bool) (in_sample_pct : ℚ) (n : ℕ) : BTState :=
  ((btIndices df cfg walk_forward in_sample_pct).take n).foldl
    (stepBar df cfg sig1 sig2 (test_startOf df cfg walk_forward in_sample_pct))
    (btInit cfg)

/-- Loop state after the whole `run_backtest` loop. -/
def btFinal (df : List Bar) (cfg : StrategyConfig) (sig1 : ℕ → Option TradeSignal)
    (sig2 : Option ℚ → Option ℚ → ℕ → Option TradeSignal)
    (walk_forward : Bool) (in_sample_pct : ℚ) : BTState :=
  (btIndices df cfg walk_forward in_sample_pct).foldl
    (stepBar df cfg sig1 sig2 (test_startOf df cfg walk_forward in_sample_pct))
    (btInit cfg)

/-- Post-loop block of `run_backtest`: force-close a still-open position at
the final bar's close, appending one more trade record and one more equity
sample. -/
def forceClose (df : List Bar) (s : BTState) : BTState :=
  match s.current_trade with
  | none => s
  | some ct =>
    let last_price := (df.getD (df.length - 1) default).close
    let pres := s.rm.process_exit ct.id last_price "Session End"
    let info := pres.2
    let account' := s.account + info.net_pnl
    { s with
      rm := pres.1
      account := account'
      trades := s.trades ++ [{
        base := ct
        exit_price := last_price
        exit_reason := "Session End"
        pnl := info.net_pnl
        gross_pnl := info.gross_pnl
        commission := info.commission
        exit_bar := df.length - 1
        bars_held := df.length - 1 - ct.entry_bar }]
      equity := s.equity ++ [account']
      current_trade := none }

/-- The observable outcome of `run_backtest`: the trade list, the equity
curve, the signal counters, and the metric entries the claims inspect
(`"error"` and `"total_trades"`; the statistical summary entries are
derived reporting and are outside every claim). -/
structure BacktestResult where
  trades : List TradeOut
  equity_curve : List ℚ
  signals_generated : ℕ
  signals_filtered : ℕ
  metrics_error : Option String
  total_trades : ℕ
  deriving Repr, DecidableEq

/-- `engines/backtester.py` `run_backtest`.  `compute_indicators` is not
under `src/`; modelled from the spec: §4.1/§3 say the enriched frame is the
bar series plus derived indicator columns, so the `high`/`low`/`close`
fields the loop reads are those of `df` itself, and the enriched frame is
folded into the signal functions `sig1`/`sig2` (also missing source,
modelled from spec §4.2 as arbitrary proposal functions). -/
def run_backtest (df : List Bar) (cfg : StrategyConfig)
    (sig1 : ℕ → Option TradeSignal)
    (sig2 : Option ℚ → Option ℚ → ℕ → Option TradeSignal)
    (walk_forward : Bool) (in_sample_pct : ℚ) : BacktestResult :=
  if df.length < cfg.trend_ema_period + 20 then
    { trades := []
      equity_curve := []
      signals_generated := 0
      signals_filtered := 0
      metrics_error := some "Insufficient data for backtest"
      total_trades := 0 }
  else
    let final := forceClose df (btFinal df cfg sig1 sig2 walk_forward in_sample_pct)
    { trades := final.trades
      equity_curve := final.equity
      signals_generated := final.signals_generated
      signals_filtered := final.signals_filtered
      metrics_error := none
      total_trades := final.trades.length }

/-- The `RiskManager` operations a driver (backtester or live scheduler)
may invoke; a run of the session state machine is a list of these. -/
inductive RMOp
  | resetDaily : RMOp
  | canTrade : RMOp
  | processEntry (trade_id : ℕ) (direction : String)
      (entry_price stop_loss take_profit : ℚ) (quantity : ℤ) : RMOp
  | processExit (trade_id : ℕ) (exit_price : ℚ) (reason : String) : RMOp
  | updateTrailingStop (trade_id : ℕ) (current_price : ℚ) : RMOp
  | checkExitConditions (trade_id : ℕ)
      (current_high current_low current_close : ℚ) : RMOp
  deriving Repr, DecidableEq

/-- Effect of one operation on the risk manager state. -/
def RMOp.apply (s : RiskManager) : RMOp → RiskManager
  | .resetDaily => s.reset_daily
  | .canTrade => (s.can_trade).1
  | .processEntry trade_id dir e st tp q => s.process_entry trade_id dir e st tp q
  | .processExit trade_id p r => (s.process_exit trade_id p r).1
  | .updateTrailingStop trade_id p => (s.update_trailing_stop trade_id p).1
  | .checkExitConditions trade_id h l c => (s.check_exit_conditions trade_id h l c).1

/-- State after a sequence of operations. -/
def runOps (s : RiskManager) (ops : List RMOp) : RiskManager :=
  ops.foldl RMOp.apply s

/-- Keys of the open-position dict, in insertion order. -/
def keysOf (m : List (ℕ × Position)) : List ℕ := m.map Prod.fst

lemma keysOf_map_replace (m : List (ℕ × Position)) (k : ℕ) (v : Position) :
    keysOf (m.map (fun p => if p.1 = k then (k, v) else p)) = keysOf m := by
  induction m with
  | nil => rfl
  | cons p t ih =>
    simp only [keysOf, List.map_cons] at ih ⊢
    by_cases hp : p.1 = k <;> simp [hp, ih]

lemma keysOf_setKey_isSome (m : List (ℕ × Position)) (k : ℕ) (v : Position)
    (h : (m.lookup k).isSome) : keysOf (setKey m k v) = keysOf m := by
  unfold setKey
  rw [if_pos h]
  exact keysOf_map_replace m k v

lemma eq_single_of_keys_singleton (m : List (ℕ × Position)) (k : ℕ)
    (h : keysOf m = [k]) : ∃ v, m = [(k, v)] := by
  match m with
  | [] => simp [keysOf] at h
  | p :: t =>
    simp only [keysOf, List.map_cons, List.cons.injEq] at h
    obtain ⟨h1, h2⟩ := h
    have ht : t = [] := List.map_eq_nil_iff.mp h2
    exact ⟨p.2, by rw [ht, ← h1]⟩

lemma delKey_of_keys_singleton (m : List (ℕ × Position)) (k : ℕ)
    (h : keysOf m = [k]) : delKey m k = [] := by
  obtain ⟨v, rfl⟩ := eq_single_of_keys_singleton m k h
  simp [delKey]

/-- The daily-loss cutoff `account_size * max_daily_loss_pct`. -/
def maxLossOf (cfg : StrategyConfig) : ℚ := cfg.account_size * cfg.max_daily_loss_pct

lemma can_trade_fst (s : RiskManager) :
    (s.can_trade).1 = s ∨
    (s.can_trade).1 =
      { s with is_shutdown := true, shutdown_reason := "Max daily loss reached" } := by
  unfold RiskManager.can_trade
  dsimp only
  repeat' split
  all_goals first | exact Or.inl rfl | exact Or.inr rfl

lemma update_trailing_fst (s : RiskManager) (trade_id : ℕ) (p : ℚ) :
    ∃ m, (s.update_trailing_stop trade_id p).1 = { s with open_positions := m } ∧
      keysOf m = keysOf s.open_positions := by
  unfold RiskManager.update_trailing_stop
  split
  · exact ⟨s.open_positions, rfl, rfl⟩
  · rename_i pos heq
    have hs : (s.open_positions.lookup trade_id).isSome := by rw [heq]; rfl
    dsimp only
    repeat' split
    all_goals exact ⟨_, rfl, keysOf_setKey_isSome _ _ _ hs⟩

lemma check_exit_fst (s : RiskManager) (trade_id : ℕ) (hi lo cl : ℚ) :
    (s.check_exit_conditions trade_id hi lo cl).1 = s ∨
    (s.check_exit_conditions trade_id hi lo cl).1 = (s.update_trailing_stop trade_id cl).1 := by
  unfold RiskManager.check_exit_conditions
  split
  · exact Or.inl rfl
  · dsimp only
    repeat' split
    all_goals first | exact Or.inl rfl | exact Or.inr rfl

lemma config_apply (s : RiskManager) (op : RMOp) : (op.apply s).config = s.config := by
  cases op with
  | resetDaily => rfl
  | canTrade =>
    rcases can_trade_fst s with h | h <;> simp [RMOp.apply, h]
  | processEntry trade_id dir e st tp q => rfl
  | processExit trade_id price reason =>
    show (s.process_exit trade_id price reason).1.config = s.config
    unfold RiskManager.process_exit
    split
    · rfl
    · rfl
  | updateTrailingStop trade_id p =>
    show (s.update_trailing_stop trade_id p).1.config = s.config
    obtain ⟨m, hm, -⟩ := update_trailing_fst s trade_id p
    rw [hm]
  | checkExitConditions trade_id h l c =>
    show (s.check_exit_conditions trade_id h l c).1.config = s.config
    rcases check_exit_fst s trade_id h l c with h' | h'
    · rw [h']
    · rw [h']
      obtain ⟨m, hm, -⟩ := update_trailing_fst s trade_id c
      rw [hm]

lemma config_runOps (s : RiskManager) (ops : List RMOp) :
    (runOps s ops).config = s.config := by
  induction ops generalizing s with
  | nil => rfl
  | cons op rest ih =>
    show (runOps (op.apply s) rest).config = s.config
    rw [ih (op.apply s), config_apply]

lemma shutdown_apply (s : RiskManager) (op : RMOp) (hop : op ≠ RMOp.resetDaily)
    (h : s.is_shutdown = true) : (op.apply s).is_shutdown = true := by
  cases op with
  | resetDaily => exact absurd rfl hop
  | canTrade =>
    show (s.can_trade).1.is_shutdown = true
    unfold RiskManager.can_trade
    rw [if_pos h]
    exact h
  | processEntry trade_id dir e st tp q => exact h
  | processExit trade_id price reason =>
    show (s.process_exit trade_id price reason).1.is_shutdown = true
    unfold RiskManager.process_exit
    split
    · exact h
    · dsimp only
      repeat' split
      all_goals first | rfl | exact h
  | updateTrailingStop trade_id p =>
    show (s.update_trailing_stop trade_id p).1.is_shutdown = true
    obtain ⟨m, hm, -⟩ := update_trailing_fst s trade_id p
    rw [hm]; exact h
  | checkExitConditions trade_id hi lo cl =>
    show (s.check_exit_conditions trade_id hi lo cl).1.is_shutdown = true
    rcases check_exit_fst s trade_id hi lo cl with h' | h'
    · rw [h']; exact h
    · rw [h']
      obtain ⟨m, hm, -⟩ := update_trailing_fst s trade_id cl
      rw [hm]; exact h

lemma shutdown_runOps (s : RiskManager) (ops : List RMOp)
    (hops : RMOp.resetDaily ∉ ops) (h : s.is_shutdown = true) :
    (runOps s ops).is_shutdown = true := by
  induction ops generalizing s with
  | nil => exact h
  | cons op rest ih =>
    have hop : op ≠ RMOp.resetDaily := fun he => hops (he ▸ List.mem_cons_self op rest)
    have hrest : RMOp.resetDaily ∉ rest := fun he => hops (List.mem_cons_of_mem op he)
    exact ih (op.apply s) hrest (shutdown_apply s op hop h)

/-- The latch invariant: whenever the daily P&L is at or below the
daily-loss cutoff, the shutdown flag is set. -/
def LossLatched (s : RiskManager) : Prop :=
  s.daily_pnl ≤ -maxLossOf s.config → s.is_shutdown = true

lemma lossLatched_apply (s : RiskManager) (op : RMOp)
    (h0 : 0 < maxLossOf s.config) (h : LossLatched s) : LossLatched (op.apply s) := by
  have hcfg : (op.apply s).config = s.config := config_apply s op
  cases op with
  | resetDaily =>
    intro habs
    simp only [RMOp.apply, RiskManager.reset_daily] at habs ⊢
    exact absurd (lt_of_lt_of_le h0 (by linarith)) (lt_irrefl 0)
  | canTrade =>
    rcases can_trade_fst s with h' | h'
    · intro habs
      simp only [RMOp.apply] at habs ⊢
      rw [h'] at habs ⊢
      exact h habs
    · intro _
      simp only [RMOp.apply]
      rw [h']
  | processEntry trade_id dir e st tp q =>
    intro habs
    simp only [RMOp.apply, RiskManager.process_entry] at habs ⊢
    exact h habs
  | processExit trade_id price reason =>
    intro habs
    rw [hcfg] at habs
    simp only [RMOp.apply] at habs ⊢
    unfold RiskManager.process_exit at habs ⊢
    revert habs
    split
    · exact fun habs => h habs
    · dsimp only
      intro habs
      unfold maxLossOf at habs
      rw [if_pos habs]
  | updateTrailingStop trade_id p =>
    intro habs
    simp only [RMOp.apply] at habs ⊢
    obtain ⟨m, hm, -⟩ := update_trailing_fst s trade_id p
    rw [hm] at habs ⊢
    exact h habs
  | checkExitConditions trade_id hi lo cl =>
    intro habs
    simp only [RMOp.apply] at habs ⊢
    rcases check_exit_fst s trade_id hi lo cl with h' | h'
    · rw [h'] at habs ⊢
      exact h habs
    · rw [h'] at habs ⊢
      obtain ⟨m, hm, -⟩ := update_trailing_fst s trade_id cl
      rw [hm] at habs ⊢
      exact h habs

lemma lossLatched_runOps (s : RiskManager) (ops : List RMOp)
    (h0 : 0 < maxLossOf s.config) (h : LossLatched s) : LossLatched (runOps s ops) := by
  induction ops generalizing s with
  | nil => exact h
  | cons op rest ih =>
    have h0' : 0 < maxLossOf (op.apply s).config := by rw [config_apply]; exact h0
    exact ih (op.apply s) h0' (lossLatched_apply s op h0 h)

lemma can_trade_false_of_shutdown (s : RiskManager) (h : s.is_shutdown = true) :
    (s.can_trade).2.1 = false := by
  unfold RiskManager.can_trade
  rw [if_pos h]

/-- **C5** (`src/engines/risk_manager.py` lines 35–66).  In any reachable
risk-manager state whose daily P&L is at or below
`-(account_size * max_daily_loss_pct)` (with a positive loss budget), every
subsequent `can_trade` call — across any continuation of operations that
does not invoke `reset_daily` — returns not-allowed; the shutdown is
latched.  After `reset_daily` is invoked, `can_trade` allows trading again
(provided no position is still open and the per-session trade cap is
positive). -/
theorem C5_daily_loss_shutdown_latched (cfg : StrategyConfig)
    (h0 : 0 < maxLossOf cfg) (ops0 ops1 : List RMOp)
    (hno : RMOp.resetDaily ∉ ops1)
    (hloss : (runOps (initRM cfg) ops0).daily_pnl ≤ -maxLossOf cfg) :
    ((runOps (runOps (initRM cfg) ops0) ops1).can_trade).2.1 = false ∧
    (0 < cfg.max_trades_per_session →
      ((runOps (runOps (initRM cfg) ops0) ops1).reset_daily).open_positions = [] →
      (((runOps (runOps (initRM cfg) ops0) ops1).reset_daily).can_trade).2.1 = true) := by
  have hcfg0 : (runOps (initRM cfg) ops0).config = cfg := config_runOps (initRM cfg) ops0
  have hinit : LossLatched (initRM cfg) := by
    intro habs
    exfalso
    have habs' : (0:ℚ) ≤ -maxLossOf cfg := habs
    linarith
  have hlat : LossLatched (runOps (initRM cfg) ops0) :=
    lossLatched_runOps (initRM cfg) ops0 h0 hinit
  have hshut : (runOps (initRM cfg) ops0).is_shutdown = true := by
    apply hlat
    rw [hcfg0]
    exact hloss
  have hshut1 : (runOps (runOps (initRM cfg) ops0) ops1).is_shutdown = true :=
    shutdown_runOps (runOps (initRM cfg) ops0) ops1 hno hshut
  refine ⟨can_trade_false_of_shutdown _ hshut1, ?_⟩
  intro hmt hopen
  have hc2 : ((runOps (runOps (initRM cfg) ops0) ops1).reset_daily).config = cfg := by
    show (runOps (runOps (initRM cfg) ops0) ops1).config = cfg
    rw [config_runOps, hcfg0]
  have hs2 : ((runOps (runOps (initRM cfg) ops0) ops1).reset_daily).is_shutdown = false := rfl
  have hd2 : ((runOps (runOps (initRM cfg) ops0) ops1).reset_daily).daily_pnl = 0 := rfl
  have ht2 : ((runOps (runOps (initRM cfg) ops0) ops1).reset_daily).trades_today = 0 := rfl
  have hmax : ¬ ((0:ℚ) ≤
      -(((runOps (runOps (initRM cfg) ops0) ops1).reset_daily).config.account_size *
        ((runOps (runOps (initRM cfg) ops0) ops1).reset_daily).config.max_daily_loss_pct)) := by
    rw [hc2]
    unfold maxLossOf at h0
    intro hx
    linarith
  have htr : ¬ (((runOps (runOps (initRM cfg) ops0) ops1).reset_daily).trades_today ≥
      ((runOps (runOps (initRM cfg) ops0) ops1).reset_daily).config.max_trades_per_session) := by
    rw [ht2, hc2]
    omega
  have hop : ¬ (((runOps (runOps (initRM cfg) ops0) ops1).reset_daily).open_positions.length > 0) := by
    rw [hopen]
    simp
  simp only [RiskManager.can_trade, hs2, hd2, Bool.false_eq_true, if_false]
  rw [if_neg hmax, if_neg htr, if_neg hop]

def c5Cfg : StrategyConfig :=
  { account_size := 100, risk_per_trade_pct := 1, max_daily_loss_pct := 1/50,
    trend_ema_period := 0, trailing_stop_pct := 1/2, max_trades_per_session := 6,
    slippage_pct := 0, commission_per_contract := 0, strategy_mode := "hybrid1" }

def c5Ops0 : List RMOp :=
  [RMOp.processEntry 1 "LONG" 100 90 110 1, RMOp.processExit 1 80 "Stop Loss"]

def c5Ops1 : List RMOp := [RMOp.canTrade]

lemma c5_daily_eval :
    (runOps (initRM c5Cfg) c5Ops0).daily_pnl ≤ -maxLossOf c5Cfg := by
  norm_num [runOps, c5Ops0, List.foldl, RMOp.apply, RiskManager.process_entry,
    RiskManager.process_exit, initRM, c5Cfg, setKey, List.lookup, maxLossOf,
    MNQ_POINT_VALUE]

/-- Witness for C5: a concrete losing session that breaches the $2 cutoff,
after which `can_trade` is not-allowed. -/
theorem C5_witness :
    0 < maxLossOf c5Cfg ∧ RMOp.resetDaily ∉ c5Ops1 ∧
    (runOps (initRM c5Cfg) c5Ops0).daily_pnl ≤ -maxLossOf c5Cfg ∧
    ((runOps (runOps (initRM c5Cfg) c5Ops0) c5Ops1).can_trade).2.1 = false :=
  ⟨by norm_num [maxLossOf, c5Cfg], by decide, c5_daily_eval,
   (C5_daily_loss_shutdown_latched c5Cfg (by norm_num [maxLossOf, c5Cfg]) c5Ops0 c5Ops1
     (by decide) c5_daily_eval).1⟩

/-- The exact (pre-rounding) net P&L that `process_exit` adds to
`daily_pnl`, recomputed from the direction, entry price, exit price and
quantity recorded in the ledger entry. -/
def exactNetPnl (cfg : StrategyConfig) (r : TradeRecord) : ℚ :=
  let slippage_amount := r.exit_price * cfg.slippage_pct
  let pnl_points := if r.direction = "LONG" then (r.exit_price - slippage_amount) - r.entry_price
                    else r.entry_price - (r.exit_price + slippage_amount)
  pnl_points * MNQ_POINT_VALUE * r.quantity - cfg.commission_per_contract * r.quantity * 2

/-- Sum of exact net P&Ls over a slice of the ledger. -/
def sumExactNet (cfg : StrategyConfig) (l : List TradeRecord) : ℚ :=
  (l.map (exactNetPnl cfg)).sum

lemma apply_ledger_delta (s : RiskManager) (op : RMOp) (hop : op ≠ RMOp.resetDaily) :
    ∃ new, (op.apply s).trade_log = s.trade_log ++ new ∧
      (op.apply s).daily_pnl = s.daily_pnl + sumExactNet s.config new := by
  cases op with
  | resetDaily => exact absurd rfl hop
  | canTrade =>
    rcases can_trade_fst s with h | h <;>
      exact ⟨[], by simp [RMOp.apply, h, sumExactNet]⟩
  | processEntry trade_id dir e st tp q =>
    exact ⟨[], by simp [RMOp.apply, RiskManager.process_entry, sumExactNet]⟩
  | updateTrailingStop trade_id p =>
    obtain ⟨m, hm, -⟩ := update_trailing_fst s trade_id p
    exact ⟨[], by simp [RMOp.apply, hm, sumExactNet]⟩
  | checkExitConditions trade_id hi lo cl =>
    rcases check_exit_fst s trade_id hi lo cl with h | h
    · exact ⟨[], by simp [RMOp.apply, h, sumExactNet]⟩
    · obtain ⟨m, hm, -⟩ := update_trailing_fst s trade_id cl
      exact ⟨[], by simp [RMOp.apply, h, hm, sumExactNet]⟩
  | processExit trade_id price reason =>
    show ∃ new, (s.process_exit trade_id price reason).1.trade_log = s.trade_log ++ new ∧
      (s.process_exit trade_id price reason).1.daily_pnl = s.daily_pnl + sumExactNet s.config new
    unfold RiskManager.process_exit
    split
    · exact ⟨[], by simp [sumExactNet]⟩
    · rename_i pos heq
      dsimp only
      refine ⟨_, rfl, ?_⟩
      by_cases hdir : pos.direction = "LONG" <;>
        simp [sumExactNet, exactNetPnl, hdir]

lemma runOps_ledger_delta (s : RiskManager) (ops : List RMOp)
    (hops : RMOp.resetDaily ∉ ops) :
    ∃ new, (runOps s ops).trade_log = s.trade_log ++ new ∧
      (runOps s ops).daily_pnl = s.daily_pnl + sumExactNet s.config new := by
  induction ops generalizing s with
  | nil => exact ⟨[], by simp [runOps, sumExactNet]⟩
  | cons op rest ih =>
    have hop : op ≠ RMOp.resetDaily := fun he => hops (he ▸ List.mem_cons_self op rest)
    have hrest : RMOp.resetDaily ∉ rest := fun he => hops (List.mem_cons_of_mem op he)
    obtain ⟨n1, hl1, hd1⟩ := apply_ledger_delta s op hop
    obtain ⟨n2, hl2, hd2⟩ := ih (op.apply s) hrest
    refine ⟨n1 ++ n2, ?_, ?_⟩
    · show (runOps (op.apply s) rest).trade_log = s.trade_log ++ (n1 ++ n2)
      rw [hl2, hl1, List.append_assoc]
    · show (runOps (op.apply s) rest).daily_pnl = s.daily_pnl + sumExactNet s.config (n1 ++ n2)
      rw [hd2, hd1, config_apply]
      unfold sumExactNet
      rw [List.map_append, List.sum_append]
      ring

/-- **C4 (amended)** (`src/engines/risk_manager.py` lines 35–40, 144–171).
Across any operation sequence that does not invoke `reset_daily`, the trade
ledger only grows, and `daily_pnl` advances by the sum of the *exact*
(pre-rounding) net P&Ls of the newly appended ledger entries.  (As stated,
the claim fails: the appended `ClosedTrade.net_pnl` fields are rounded to
two decimals while `daily_pnl` accumulates unrounded values — see the
counterexample.) -/
theorem C4_amended_daily_pnl_sums_exact (s : RiskManager) (ops : List RMOp)
    (hops : RMOp.resetDaily ∉ ops) :
    (runOps s ops).trade_log.take s.trade_log.length = s.trade_log ∧
    (runOps s ops).daily_pnl =
      s.daily_pnl +
        sumExactNet s.config ((runOps s ops).trade_log.drop s.trade_log.length) := by
  obtain ⟨new, hl, hd⟩ := runOps_ledger_delta s ops hops
  rw [hl]
  exact ⟨List.take_left s.trade_log new, by rw [List.drop_left]; exact hd⟩

def c4Cfg : StrategyConfig :=
  { account_size := 100000, risk_per_trade_pct := 1, max_daily_loss_pct := 1,
    trend_ema_period := 0, trailing_stop_pct := 1/2, max_trades_per_session := 6,
    slippage_pct := 0, commission_per_contract := 1/32, strategy_mode := "hybrid1" }

def c4Ops : List RMOp :=
  [RMOp.processEntry 1 "LONG" 100 90 110 1, RMOp.processExit 1 101 "Take Profit"]

def c4State : RiskManager := runOps (initRM c4Cfg) c4Ops

/-- Counterexample for C4 as stated: one closed trade whose exact net P&L
is 1.9375; `daily_pnl` holds 1.9375 while the ledger entry records
`round(1.9375, 2) = 1.94`, so the ledger sum differs from `daily_pnl`. -/
theorem C4_counterexample_ledger_sum_ne_daily_pnl :
    c4State.daily_pnl ≠ (c4State.trade_log.map TradeRecord.net_pnl).sum := by
  norm_num [c4State, c4Ops, runOps, List.foldl, RMOp.apply, RiskManager.process_entry,
    RiskManager.process_exit, initRM, c4Cfg, setKey, delKey, List.lookup,
    MNQ_POINT_VALUE, roundTo2, round_eq]

/-- Witness for the amended C4 at a concrete run. -/
theorem C4_witness :
    RMOp.resetDaily ∉ c4Ops ∧
    ((runOps (initRM c4Cfg) c4Ops).trade_log.take
        (initRM c4Cfg).trade_log.length = (initRM c4Cfg).trade_log ∧
      (runOps (initRM c4Cfg) c4Ops).daily_pnl =
        (initRM c4Cfg).daily_pnl +
          sumExactNet (initRM c4Cfg).config
            ((runOps (initRM c4Cfg) c4Ops).trade_log.drop
              (initRM c4Cfg).trade_log.length)) :=
  ⟨by decide, C4_amended_daily_pnl_sums_exact (initRM c4Cfg) c4Ops (by decide)⟩

def c2Cfg : StrategyConfig :=
  { account_size := 25000, risk_per_trade_pct := 1/400, max_daily_loss_pct := 1/50,
    trend_ema_period := 50, trailing_stop_pct := 1/2, max_trades_per_session := 6,
    slippage_pct := 1/1000, commission_per_contract := 62/100, strategy_mode := "hybrid1" }

def c2Pos : Position :=
  { direction := "LONG", entry_price := 100, stop_loss := 100 + 1/1000,
    take_profit := 200, quantity := 1, highest_price := 100, lowest_price := 100 }

def c2RM : RiskManager := { initRM c2Cfg with open_positions := [(1, c2Pos)] }

/-- **C2** (`src/engines/risk_manager.py` lines 177–228).  Evaluation at the
failing input: a LONG position with stored stop 100.001; one
`update_trailing_stop` call at price 100.008 computes the candidate stop
100.004 (which passes the `new_stop > current_stop` guard) but stores
`round(100.004, 2) = 100.00`, moving the stored stop DOWN — contradicting
the source's own comment "Only move stop UP, never down". -/
theorem C2_code_bug_stop_moves_down :
    ((c2RM.update_trailing_stop 1 (100 + 1/125)).1.open_positions.lookup 1).map
        Position.stop_loss = some 100 ∧
    (c2RM.open_positions.lookup 1).map Position.stop_loss = some (100 + 1/1000) ∧
    (100 : ℚ) < 100 + 1/1000 := by
  refine ⟨?_, by simp [c2RM, c2Pos, initRM, List.lookup], by norm_num⟩
  norm_num [RiskManager.update_trailing_stop, c2RM, c2Pos, c2Cfg, initRM, setKey,
    List.lookup, roundTo2, round_eq]

/-- **C3** (`src/engines/risk_manager.py` lines 232–265).  For an open LONG
position, a bar whose low touches the stop and whose high touches the
target resolves as a stop-loss exit at the stop price (stop is checked
first); mirrored for SHORT (the stop at the bar high wins over the target
at the bar low). -/
theorem C3_stop_checked_before_target (s : RiskManager) (trade_id : ℕ) (pos : Position)
    (hi lo cl : ℚ) (hpos : s.open_positions.lookup trade_id = some pos) :
    (pos.direction = "LONG" → lo ≤ pos.stop_loss → pos.take_profit ≤ hi →
      (s.check_exit_conditions trade_id hi lo cl).2 = some (pos.stop_loss, "Stop Loss")) ∧
    (pos.direction = "SHORT" → pos.stop_loss ≤ hi → lo ≤ pos.take_profit →
      (s.check_exit_conditions trade_id hi lo cl).2 = some (pos.stop_loss, "Stop Loss")) := by
  constructor
  · intro hdir hstop htp
    unfold RiskManager.check_exit_conditions
    rw [hpos]
    dsimp only
    rw [if_pos hdir, if_pos hstop]
  · intro hdir hstop htp
    unfold RiskManager.check_exit_conditions
    rw [hpos]
    dsimp only
    have hne : ¬ (pos.direction = "LONG") := by rw [hdir]; decide
    rw [if_neg hne, if_pos hstop]

def c3Pos : Position :=
  { direction := "LONG", entry_price := 100, stop_loss := 90,
    take_profit := 110, quantity := 1, highest_price := 100, lowest_price := 100 }

def c3Cfg : StrategyConfig :=
  { account_size := 25000, risk_per_trade_pct := 1/400, max_daily_loss_pct := 1/50,
    trend_ema_period := 50, trailing_stop_pct := 1/2, max_trades_per_session := 6,
    slippage_pct := 1/1000, commission_per_contract := 62/100, strategy_mode := "hybrid1" }

def c3RM : RiskManager := { initRM c3Cfg with open_positions := [(1, c3Pos)] }

/-- Witness for C3: a LONG position with stop 90 and target 110 on a bar
spanning both (low 80, high 120) exits at the stop. -/
theorem C3_witness :
    c3RM.open_positions.lookup 1 = some c3Pos ∧
    (c3RM.check_exit_conditions 1 120 80 100).2 = some (90, "Stop Loss") := by
  have h : c3RM.open_positions.lookup 1 = some c3Pos := by
    simp [c3RM, c3Pos, initRM, List.lookup]
  exact ⟨h, (C3_stop_checked_before_target c3RM 1 c3Pos 120 80 100 h).1 rfl
    (by norm_num [c3Pos]) (by norm_num [c3Pos])⟩

/-- **C9 (amended)** (`src/engines/risk_manager.py` lines 99–112).
`process_entry` never fails and is never a no-op: it always increments
`trades_today`, and it adds a new map entry whenever the trade id is not
already a key (overwriting in place when it is).  In particular, calling it
while a position is open registers a second position — the claim's
"fails as a no-op" does not hold (see the counterexample). -/
theorem C9_amended_process_entry_unconditional (s : RiskManager) (trade_id : ℕ)
    (dir : String) (e st tp : ℚ) (q : ℤ) :
    (s.process_entry trade_id dir e st tp q).trades_today = s.trades_today + 1 ∧
    (s.process_entry trade_id dir e st tp q).open_positions.length =
      (if (s.open_positions.lookup trade_id).isSome then s.open_positions.length
       else s.open_positions.length + 1) := by
  refine ⟨rfl, ?_⟩
  show (setKey s.open_positions trade_id _).length = _
  unfold setKey
  split
  · simp
  · simp

def c9S1 : RiskManager := (initRM c3Cfg).process_entry 1 "LONG" 100 90 110 1

def c9S2 : RiskManager := c9S1.process_entry 2 "LONG" 101 91 111 1

/-- Counterexample for C9 as stated: with position 1 already open, a second
`process_entry` call is not a no-op — it registers a second position and
increments `trades_today`. -/
theorem C9_counterexample_second_entry_registered :
    c9S2.open_positions.length = 2 ∧ c9S1.open_positions.length = 1 ∧
    c9S2.trades_today = 2 ∧ c9S1.trades_today = 1 := by
  refine ⟨?_, ?_, rfl, rfl⟩ <;>
    simp [c9S2, c9S1, RiskManager.process_entry, initRM, setKey, List.lookup]

/-- **C10** (`src/engines/risk_manager.py` lines 26–40).  `reset_daily`
touches only the four daily counters; the open-position map (with stops,
water marks and quantities) and the accumulated trade ledger survive a
session boundary untouched, as does the configuration. -/
theorem C10_reset_daily_frame (s : RiskManager) :
    (s.reset_daily).open_positions = s.open_positions ∧
    (s.reset_daily).trade_log = s.trade_log ∧
    (s.reset_daily).config = s.config ∧
    (s.reset_daily).daily_pnl = 0 ∧
    (s.reset_daily).trades_today = 0 ∧
    (s.reset_daily).is_shutdown = false ∧
    (s.reset_daily).shutdown_reason = "" :=
  ⟨rfl, rfl, rfl, rfl, rfl, rfl, rfl⟩

lemma sum_neg_of_mem_neg (l : List ℚ) (hne : l ≠ []) (h : ∀ x ∈ l, x < 0) :
    l.sum < 0 := by
  induction l with
  | nil => exact absurd rfl hne
  | cons x t ih =>
    rcases eq_or_ne t [] with rfl | hne'
    · simpa using h x (by simp)
    · have ht := ih hne' (fun y hy => h y (List.mem_cons_of_mem x hy))
      have hx := h x (List.mem_cons_self x t)
      simp only [List.sum_cons]
      linarith

lemma meanQ_neg (l : List ℚ) (hne : l ≠ []) (h : ∀ x ∈ l, x < 0) : meanQ l < 0 := by
  unfold meanQ
  apply div_neg_of_neg_of_pos (sum_neg_of_mem_neg l hne h)
  exact_mod_cast List.length_pos.mpr hne

/-- **C8 (amended)** (`src/utils/helpers.py` lines 126–140).  On a
non-empty ledger with at least one loser, `calculate_avg_rr` is the mean
winning P&L (0 when there are no winners) divided by the absolute mean
losing P&L; with no losers it returns the mean winning P&L — not 0 as the
claim states (see the counterexample) — falling back to 0 only when there
are no winners either.  The claim's worked example holds:
`[+100, −50, +150, −50] ↦ 2.5`. -/
theorem C8_amended_avg_rr (pnls : List ℚ) (hne : pnls ≠ []) :
    (pnls.filter (fun p => p < 0) = [] →
      calculate_avg_rr pnls =
        (if pnls.filter (fun p => 0 < p) = [] then 0
         else meanQ (pnls.filter (fun p => 0 < p)))) ∧
    (pnls.filter (fun p => p < 0) ≠ [] →
      calculate_avg_rr pnls =
        (if pnls.filter (fun p => 0 < p) = [] then 0
         else meanQ (pnls.filter (fun p => 0 < p))) /
          |meanQ (pnls.filter (fun p => p < 0))|) ∧
    calculate_avg_rr [100, -50, 150, -50] = 5/2 := by
  have hlen : ¬ (pnls.length = 0) := by
    simpa using hne
  refine ⟨?_, ?_, ?_⟩
  · intro hl
    unfold calculate_avg_rr
    rw [if_neg hlen]
    dsimp only
    rw [if_pos (Or.inl (by rw [hl]; rfl))]
    rcases eq_or_ne (pnls.filter (fun p => 0 < p)) [] with hw | hw
    · rw [if_pos hw, if_neg (by rw [hw]; simp)]
    · rw [if_neg hw, if_pos (by simpa [List.length_pos] using hw)]
  · intro hl
    have hmean : meanQ (pnls.filter (fun p => p < 0)) < 0 := by
      apply meanQ_neg _ hl
      intro x hx
      have := List.mem_filter.mp hx
      exact of_decide_eq_true this.2
    unfold calculate_avg_rr
    rw [if_neg hlen]
    dsimp only
    rw [if_neg (by push_neg; exact ⟨by simpa [List.length_eq_zero] using hl, ne_of_lt hmean⟩)]
    rw [if_pos (abs_pos.mpr (ne_of_lt hmean))]
    rcases eq_or_ne (pnls.filter (fun p => 0 < p)) [] with hw | hw
    · rw [if_pos hw, if_neg (by rw [hw]; simp)]
    · rw [if_neg hw, if_pos (by simpa [List.length_pos] using hw)]
  · norm_num [calculate_avg_rr, meanQ, List.filter]

/-- Counterexample for C8 as stated: a ledger with a single winning trade
and no losers returns the mean win (100), not 0. -/
theorem C8_counterexample_no_losers :
    calculate_avg_rr [100] = 100 ∧ (100 : ℚ) ≠ 0 := by
  constructor
  · norm_num [calculate_avg_rr, meanQ, List.filter]
  · norm_num

/-- Witness for the amended C8 at the spec's own example ledger. -/
theorem C8_witness :
    ([100, -50, 150, -50] : List ℚ) ≠ [] ∧
    calculate_avg_rr [100, -50, 150, -50] = 5/2 :=
  ⟨by simp, (C8_amended_avg_rr [100, -50, 150, -50] (by simp)).2.2⟩

/-- **C6** (`src/engines/backtester.py` lines 79–83).  With fewer bars than
`trend_ema_period + 20`, `run_backtest` returns the structured
insufficient-data result: the `"error"` metric is set, the trade list is
empty and the reported trade count is zero (the function is total — no
exception is modelled because none can be raised on this path). -/
theorem C6_insufficient_data (df : List Bar) (cfg : StrategyConfig)
    (sig1 : ℕ → Option TradeSignal)
    (sig2 : Option ℚ → Option ℚ → ℕ → Option TradeSignal)
    (walk_forward : Bool) (in_sample_pct : ℚ)
    (h : df.length < cfg.trend_ema_period + 20) :
    (run_backtest df cfg sig1 sig2 walk_forward in_sample_pct).metrics_error =
      some "Insufficient data for backtest" ∧
    (run_backtest df cfg sig1 sig2 walk_forward in_sample_pct).trades = [] ∧
    (run_backtest df cfg sig1 sig2 walk_forward in_sample_pct).total_trades = 0 := by
  unfold run_backtest
  rw [if_pos h]
  exact ⟨rfl, rfl, rfl⟩

def c6Cfg : StrategyConfig :=
  { account_size := 25000, risk_per_trade_pct := 1/400, max_daily_loss_pct := 1/50,
    trend_ema_period := 50, trailing_stop_pct := 1/2, max_trades_per_session := 6,
    slippage_pct := 1/1000, commission_per_contract := 62/100, strategy_mode := "hybrid1" }

/-- Witness for C6: an empty bar series against the default 50-bar trend
period. -/
theorem C6_witness :
    ([] : List Bar).length < c6Cfg.trend_ema_period + 20 ∧
    (run_backtest [] c6Cfg (fun _ => none) (fun _ _ _ => none) true (7/10)).trades = [] :=
  ⟨by norm_num [c6Cfg],
   (C6_insufficient_data [] c6Cfg (fun _ => none) (fun _ _ _ => none) true (7/10)
     (by norm_num [c6Cfg])).2.1⟩

/-- Loop invariant tying the backtester's `current_trade` to the risk
manager's open-position dict: no trade tracked ↔ the dict is empty, a trade
tracked ↔ the dict holds exactly that trade id. -/
def OnePos (s : BTState) : Prop :=
  (s.current_trade = none → s.rm.open_positions = []) ∧
  (∀ ct : CurrentTrade, s.current_trade = some ct →
    keysOf s.rm.open_positions = [ct.id])

lemma onePos_none (s' : BTState) (h1 : s'.current_trade = none)
    (h2 : s'.rm.open_positions = []) : OnePos s' := by
  constructor
  · intro _
    exact h2
  · intro ct hct
    rw [h1] at hct
    cases hct

lemma onePos_some (s' : BTState) (ct : CurrentTrade) (h1 : s'.current_trade = some ct)
    (h2 : keysOf s'.rm.open_positions = [ct.id]) : OnePos s' := by
  constructor
  · intro hn
    rw [h1] at hn
    cases hn
  · intro ct' hct'
    rw [h1] at hct'
    injection hct' with he
    rw [← he]
    exact h2

lemma onePos_length {s : BTState} (h : OnePos s) : s.rm.open_positions.length ≤ 1 := by
  cases hct : s.current_trade with
  | none => rw [h.1 hct]; simp
  | some ct =>
    have hk := h.2 ct hct
    have hlen : s.rm.open_positions.length = (keysOf s.rm.open_positions).length := by
      simp [keysOf]
    rw [hlen, hk]
    simp

lemma can_trade_open (s : RiskManager) :
    (s.can_trade).1.open_positions = s.open_positions := by
  rcases can_trade_fst s with h | h <;> rw [h]

lemma check_exit_keys (s : RiskManager) (trade_id : ℕ) (hi lo cl : ℚ) :
    keysOf (s.check_exit_conditions trade_id hi lo cl).1.open_positions =
      keysOf s.open_positions := by
  rcases check_exit_fst s trade_id hi lo cl with h | h
  · rw [h]
  · rw [h]
    obtain ⟨m, hm, hk⟩ := update_trailing_fst s trade_id cl
    rw [hm]
    exact hk

lemma process_exit_open_of_singleton (s : RiskManager) (trade_id : ℕ) (p : ℚ) (r : String)
    (h : keysOf s.open_positions = [trade_id]) :
    (s.process_exit trade_id p r).1.open_positions = [] := by
  obtain ⟨v, hv⟩ := eq_single_of_keys_singleton _ _ h
  unfold RiskManager.process_exit
  split
  · rename_i hnone
    rw [hv] at hnone
    simp [List.lookup] at hnone
  · dsimp only
    exact delKey_of_keys_singleton _ _ h

lemma process_entry_keys_of_empty (s : RiskManager) (h : s.open_positions = [])
    (trade_id : ℕ) (dir : String) (e st tp : ℚ) (q : ℤ) :
    keysOf (s.process_entry trade_id dir e st tp q).open_positions = [trade_id] := by
  simp [RiskManager.process_entry, setKey, h, keysOf, List.lookup]

lemma sessionPhase_current (df : List Bar) (i : ℕ) (s : BTState) :
    (sessionPhase df i s).current_trade = s.current_trade := by
  unfold sessionPhase
  dsimp only
  repeat' split
  all_goals rfl

lemma sessionPhase_open (df : List Bar) (i : ℕ) (s : BTState) :
    (sessionPhase df i s).rm.open_positions = s.rm.open_positions := by
  unfold sessionPhase RiskManager.reset_daily
  dsimp only
  repeat' split
  all_goals rfl

lemma sessionPhase_onePos (df : List Bar) (i : ℕ) {s : BTState} (h : OnePos s) :
    OnePos (sessionPhase df i s) := by
  constructor
  · intro hn
    rw [sessionPhase_open]
    exact h.1 (by rw [← sessionPhase_current df i s]; exact hn)
  · intro ct hct
    have hk : keysOf (sessionPhase df i s).rm.open_positions =
        keysOf s.rm.open_positions := by rw [sessionPhase_open]
    rw [hk]
    exact h.2 ct (by rw [← sessionPhase_current df i s]; exact hct)

lemma exitPhase_onePos (df : List Bar) (i : ℕ) {s : BTState} (h : OnePos s) :
    OnePos (exitPhase df i s) := by
  unfold exitPhase
  split
  · exact h
  · rename_i ct heq
    have hk : keysOf s.rm.open_positions = [ct.id] := h.2 ct heq
    dsimp only
    split
    · refine onePos_some _ ct heq ?_
      dsimp only
      rw [check_exit_keys]
      exact hk
    · refine onePos_none _ rfl ?_
      dsimp only
      refine process_exit_open_of_singleton _ _ _ _ ?_
      rw [check_exit_keys]
      exact hk

lemma entryPhase_onePos (cfg : StrategyConfig) (sig1 : ℕ → Option TradeSignal)
    (sig2 : Option ℚ → Option ℚ → ℕ → Option TradeSignal) (test_start i : ℕ)
    {s : BTState} (h : OnePos s) : OnePos (entryPhase cfg sig1 sig2 test_start i s) := by
  unfold entryPhase
  split
  · exact h
  · rename_i heq
    have hempty : s.rm.open_positions = [] := h.1 heq
    dsimp only
    repeat' split
    all_goals
      first
        | exact onePos_none _ heq (by dsimp only; rw [can_trade_open]; exact hempty)
        | exact onePos_some _ _ rfl (by
            dsimp only
            exact process_entry_keys_of_empty _
              (by rw [can_trade_open]; exact hempty) _ _ _ _ _ _)

lemma equityPhase_onePos {s : BTState} (h : OnePos s) : OnePos (equityPhase s) := by
  constructor
  · intro hn
    exact h.1 hn
  · intro ct hct
    exact h.2 ct hct

lemma stepBar_onePos (df : List Bar) (cfg : StrategyConfig)
    (sig1 : ℕ → Option TradeSignal)
    (sig2 : Option ℚ → Option ℚ → ℕ → Option TradeSignal) (test_start : ℕ)
    {s : BTState} (h : OnePos s) (i : ℕ) :
    OnePos (stepBar df cfg sig1 sig2 test_start s i) := by
  unfold stepBar
  exact equityPhase_onePos (entryPhase_onePos cfg sig1 sig2 test_start i
    (exitPhase_onePos df i (sessionPhase_onePos df i h)))

lemma foldl_onePos (df : List Bar) (cfg : StrategyConfig)
    (sig1 : ℕ → Option TradeSignal)
    (sig2 : Option ℚ → Option ℚ → ℕ → Option TradeSignal) (test_start : ℕ)
    (l : List ℕ) {s : BTState} (h : OnePos s) :
    OnePos (l.foldl (stepBar df cfg sig1 sig2 test_start) s) := by
  induction l generalizing s with
  | nil => exact h
  | cons i rest ih => exact ih (stepBar_onePos df cfg sig1 sig2 test_start h i)

lemma forceClose_onePos (df : List Bar) {s : BTState} (h : OnePos s) :
    OnePos (forceClose df s) := by
  unfold forceClose
  split
  · exact h
  · rename_i ct heq
    have hk : keysOf s.rm.open_positions = [ct.id] := h.2 ct heq
    dsimp only
    refine onePos_none _ rfl ?_
    dsimp only
    exact process_exit_open_of_singleton _ _ _ _ hk

/-- **C1** (`src/engines/backtester.py` lines 96–213,
`src/engines/risk_manager.py` lines 62–66).  At every point of the
`run_backtest` loop — after any number `n` of processed bar indices, for
every bar series, configuration, walk-forward setting and pair of signal
generators — the risk manager holds at most one open position; the same
bound holds after the post-loop force-close. -/
theorem C1_at_most_one_open_position (df : List Bar) (cfg : StrategyConfig)
    (sig1 : ℕ → Option TradeSignal)
    (sig2 : Option ℚ → Option ℚ → ℕ → Option TradeSignal)
    (walk_forward : Bool) (in_sample_pct : ℚ) (n : ℕ) :
    ((btRun df cfg sig1 sig2 walk_forward in_sample_pct n).rm.open_positions).length ≤ 1 ∧
    ((forceClose df
        (btFinal df cfg sig1 sig2 walk_forward in_sample_pct)).rm.open_positions).length ≤ 1 := by
  have h0 : OnePos (btInit cfg) := onePos_none _ rfl rfl
  constructor
  · exact onePos_length (foldl_onePos df cfg sig1 sig2
      (test_startOf df cfg walk_forward in_sample_pct) _ h0)
  · exact onePos_length (forceClose_onePos df (foldl_onePos df cfg sig1 sig2
      (test_startOf df cfg walk_forward in_sample_pct) _ h0))

lemma sessionPhase_equity (df : List Bar) (i : ℕ) (s : BTState) :
    (sessionPhase df i s).equity = s.equity := by
  unfold sessionPhase RiskManager.reset_daily
  dsimp only
  repeat' split
  all_goals rfl

lemma exitPhase_equity (df : List Bar) (i : ℕ) (s : BTState) :
    (exitPhase df i s).equity = s.equity := by
  unfold exitPhase
  dsimp only
  repeat' split
  all_goals rfl

lemma entryPhase_equity (cfg : StrategyConfig) (sig1 : ℕ → Option TradeSignal)
    (sig2 : Option ℚ → Option ℚ → ℕ → Option TradeSignal) (test_start i : ℕ)
    (s : BTState) : (entryPhase cfg sig1 sig2 test_start i s).equity = s.equity := by
  unfold entryPhase
  dsimp only
  repeat' split
  all_goals rfl

lemma stepBar_equity_length (df : List Bar) (cfg : StrategyConfig)
    (sig1 : ℕ → Option TradeSignal)
    (sig2 : Option ℚ → Option ℚ → ℕ → Option TradeSignal) (test_start : ℕ)
    (s : BTState) (i : ℕ) :
    (stepBar df cfg sig1 sig2 test_start s i).equity.length = s.equity.length + 1 := by
  unfold stepBar equityPhase
  dsimp only
  rw [entryPhase_equity, exitPhase_equity, sessionPhase_equity]
  simp

lemma foldl_equity_length (df : List Bar) (cfg : StrategyConfig)
    (sig1 : ℕ → Option TradeSignal)
    (sig2 : Option ℚ → Option ℚ → ℕ → Option TradeSignal) (test_start : ℕ)
    (l : List ℕ) (s : BTState) :
    (l.foldl (stepBar df cfg sig1 sig2 test_start) s).equity.length =
      s.equity.length + l.length := by
  induction l generalizing s with
  | nil => rfl
  | cons i rest ih =>
    show (rest.foldl (stepBar df cfg sig1 sig2 test_start)
      (stepBar df cfg sig1 sig2 test_start s i)).equity.length = _
    rw [ih, stepBar_equity_length]
    simp only [List.length_cons]
    omega

lemma forceClose_equity_length (df : List Bar) (s : BTState) :
    (forceClose df s).equity.length =
      s.equity.length + (if s.current_trade.isSome then 1 else 0) := by
  unfold forceClose
  split
  · rename_i heq
    rw [heq]
    simp
  · rename_i ct heq
    rw [heq]
    dsimp only
    simp

/-- **C7 (amended)** (`src/engines/backtester.py` lines 96–213).  On
sufficient data the equity curve holds the starting balance plus one sample
per evaluated bar — and one extra sample when a position is still open
after the last bar, because the post-loop force-close appends the final
account value again.  (As stated — always `bars processed + 1` — the claim
fails whenever a run ends with an open position; see the
counterexample.) -/
theorem C7_amended_equity_curve_length (df : List Bar) (cfg : StrategyConfig)
    (sig1 : ℕ → Option TradeSignal)
    (sig2 : Option ℚ → Option ℚ → ℕ → Option TradeSignal)
    (walk_forward : Bool) (in_sample_pct : ℚ)
    (h : ¬ (df.length < cfg.trend_ema_period + 20)) :
    (run_backtest df cfg sig1 sig2 walk_forward in_sample_pct).equity_curve.length =
      (df.length - test_startOf df cfg walk_forward in_sample_pct) + 1 +
        (if (btFinal df cfg sig1 sig2 walk_forward in_sample_pct).current_trade.isSome
         then 1 else 0) := by
  unfold run_backtest
  rw [if_neg h]
  dsimp only
  rw [forceClose_equity_length]
  unfold btFinal btIndices
  rw [foldl_equity_length]
  have h1 : (btInit cfg).equity.length = 1 := rfl
  rw [h1, List.length_range']
  omega

def c7Cfg : StrategyConfig :=
  { account_size := 100, risk_per_trade_pct := 1, max_daily_loss_pct := 1,
    trend_ema_period := 0, trailing_stop_pct := 1, max_trades_per_session := 6,
    slippage_pct := 0, commission_per_contract := 0, strategy_mode := "hybrid1" }

def c7Bar : Bar := { high := 100, low := 100, close := 100 }

def c7Df : List Bar := List.replicate 20 c7Bar

def c7Sig1 : ℕ → Option TradeSignal := fun i =>
  if i = 19 then
    some { signal := Signal.LONG, entry_price := 100, stop_loss := 75,
           take_profit := 1000, confidence := 1, strategy := "hybrid1", reason := "test" }
  else none

def c7Sig2 : Option ℚ → Option ℚ → ℕ → Option TradeSignal := fun _ _ _ => none

/-- Intermediate loop states of the C7 counterexample run: nothing changes
but the equity samples until the signal fires. -/
def c7State (e : List ℚ) : BTState :=
  { rm := initRM c7Cfg, account := 100, equity := e, trades := [],
    current_trade := none, trade_id_counter := 0, orb_high := none, orb_low := none,
    signals_generated := 0, signals_filtered := 0 }

lemma c7_step (e : List ℚ) (i : ℕ) (h : i = 15 ∨ i = 16 ∨ i = 17 ∨ i = 18) :
    stepBar c7Df c7Cfg c7Sig1 c7Sig2 15 (c7State e) i = c7State (e ++ [100]) := by
  rcases h with rfl | rfl | rfl | rfl <;>
    norm_num [stepBar, sessionPhase, exitPhase, entryPhase, equityPhase, c7State,
      initRM, c7Cfg, RiskManager.can_trade, c7Sig1, c7Sig2]

lemma c7_step19 (e : List ℚ) :
    (stepBar c7Df c7Cfg c7Sig1 c7Sig2 15 (c7State e) 19).current_trade.isSome = true := by
  norm_num [stepBar, sessionPhase, exitPhase, entryPhase, equityPhase, c7State,
    initRM, c7Cfg, RiskManager.can_trade, RiskManager.calculate_position_size,
    RiskManager.process_entry, setKey, List.lookup, ratTrunc, MNQ_POINT_VALUE,
    c7Sig1, c7Sig2, Signal.value]
  rw [if_neg (show ¬ (Signal.LONG = Signal.FLAT) from by decide)]
  rfl

lemma c7_final_isSome :
    (btFinal c7Df c7Cfg c7Sig1 c7Sig2 true (3/4)).current_trade.isSome = true := by
  have hts : test_startOf c7Df c7Cfg true (3/4) = 15 := by
    norm_num [test_startOf, c7Df, ratTrunc]
    decide
  have hlen : c7Df.length = 20 := by norm_num [c7Df]
  have hidx : btIndices c7Df c7Cfg true (3/4) = [15, 16, 17, 18, 19] := by
    unfold btIndices
    rw [hts, hlen]
    norm_num [List.range']
  unfold btFinal
  rw [hidx, hts]
  have h0 : btInit c7Cfg = c7State [100] := rfl
  rw [h0]
  simp only [List.foldl]
  rw [c7_step _ 15 (Or.inl rfl), c7_step _ 16 (Or.inr (Or.inl rfl)),
    c7_step _ 17 (Or.inr (Or.inr (Or.inl rfl))),
    c7_step _ 18 (Or.inr (Or.inr (Or.inr rfl)))]
  exact c7_step19 _

/-- Counterexample for C7 as stated: on 20 constant bars with a signal
firing on the last evaluated bar (so the position is still open when the
loop ends), the equity curve has `bars processed + 2 = 7` samples, not
`bars processed + 1 = 6` — the force-close appends an extra sample. -/
theorem C7_counterexample_open_position_extra_sample :
    (run_backtest c7Df c7Cfg c7Sig1 c7Sig2 true (3/4)).equity_curve.length = 7 ∧
    (c7Df.length - test_startOf c7Df c7Cfg true (3/4)) + 1 = 6 := by
  constructor
  · have hs : ¬ (c7Df.length < c7Cfg.trend_ema_period + 20) := by
      norm_num [c7Df, c7Cfg]
    unfold run_backtest
    rw [if_neg hs]
    dsimp only
    rw [forceClose_equity_length, c7_final_isSome]
    unfold btFinal btIndices
    rw [foldl_equity_length]
    have h1 : (btInit c7Cfg).equity.length = 1 := rfl
    rw [h1, List.length_range']
    norm_num [c7Df, test_startOf, ratTrunc, c7Cfg]
    omega
  · norm_num [c7Df, test_startOf, ratTrunc, c7Cfg]
    omega

/-- Witness for the amended C7 at the concrete counterexample run (20 bars,
5 evaluated, position open at loop end). -/
theorem C7_witness :
    ¬ (c7Df.length < c7Cfg.trend_ema_period + 20) ∧
    (run_backtest c7Df c7Cfg c7Sig1 c7Sig2 true (3/4)).equity_curve.length =
      (c7Df.length - test_startOf c7Df c7Cfg true (3/4)) + 1 +
        (if (btFinal c7Df c7Cfg c7Sig1 c7Sig2 true (3/4)).current_trade.isSome
         then 1 else 0) :=
  ⟨by norm_num [c7Df, c7Cfg],
   C7_amended_equity_curve_length c7Df c7Cfg c7Sig1 c7Sig2 true (3/4)
     (by norm_num [c7Df, c7Cfg])⟩
